import Mathlib

/-!
Verification of the scraper core of the Competitor Pricing Tracker.

The TypeScript sources are embedded shallowly:

* JavaScript strings are modelled as `List Char` (`Str`).
* JavaScript numbers produced by `parseFloat` are modelled as `Option ℚ`
  (`none` models `NaN`); on the inputs `parsePrice` feeds to `parseFloat`
  (strings over digits, `.` and `-` only) the grammar of `parseFloat`
  is exact rational arithmetic, so `ℚ` is a faithful carrier.
* Fallible code (`throw`) is modelled with `Except`.
* The browser, pages and DOM elements are external capabilities; they are
  modelled as explicit values (`PageModel`, `Element`, `Handle`) passed to
  the embedded operations, which mirror the source line by line.
-/

namespace PriceTracker

deriving instance DecidableEq for Except

/-- JavaScript strings, modelled as lists of characters. -/
abbrev Str : Type := List Char

/-- Whitespace recognised by the model of `String.prototype.trim`. -/
def isSpaceChar (c : Char) : Bool :=
  decide (c = ' ' ∨ c = '\t' ∨ c = '\n' ∨ c = '\r')

/-- Model of `String.prototype.trim`: drop whitespace from both ends. -/
def trim (s : Str) : Str :=
  ((s.dropWhile isSpaceChar).reverse.dropWhile isSpaceChar).reverse

/-- ASCII digit, the regex class `\d`. -/
def isDigitChar (c : Char) : Bool :=
  decide (48 ≤ c.toNat ∧ c.toNat ≤ 57)

/-- The regex word class `\w` = `[A-Za-z0-9_]`, used for `\b` boundaries. -/
def isWordChar (c : Char) : Bool :=
  isDigitChar c || decide (65 ≤ c.toNat ∧ c.toNat ≤ 90) ||
    decide (97 ≤ c.toNat ∧ c.toNat ≤ 122) || decide (c = '_')

/-- Characters kept by `replace(/[^\d.-]/g, '')` in `parsePrice`. -/
def numKeep (c : Char) : Bool :=
  isDigitChar c || decide (c = '.') || decide (c = '-')

/-- `replace(/,/g, '')` in `parsePrice`: remove every comma. -/
def removeCommas (s : Str) : Str := s.filter (fun c => !decide (c = ','))

/-- `replace(/[^\d.-]/g, '')` in `parsePrice`: keep only digits, `.`, `-`. -/
def stripNonNumeric (s : Str) : Str := s.filter numKeep

/-- Numeric value of a digit string (most significant digit first). -/
def digitsVal (ds : Str) : Nat := ds.foldl (fun n c => 10 * n + (c.toNat - 48)) 0

/-- Model of JavaScript `parseFloat` on strings over digits, `.` and `-`
(the only alphabet `parsePrice` can produce after filtering): an optional
sign, then digits, then an optional `.` with more digits; the longest such
leading piece is the value, and `none` models `NaN` when there is none.
(`parseFloat` also skips leading whitespace and accepts exponents, but
neither can survive the `[^\d.-]` filter.) -/
def parseFloatQ (s : Str) : Option ℚ :=
  let neg : Bool := decide (s.head? = some '-')
  let s₁ : Str := if s.head? = some '-' ∨ s.head? = some '+' then s.tail else s
  let ds₁ := s₁.takeWhile isDigitChar
  let r₁ := s₁.dropWhile isDigitChar
  let ds₂ : Str := if r₁.head? = some '.' then r₁.tail.takeWhile isDigitChar else []
  if ds₁ = [] ∧ ds₂ = [] then none
  else
    let mag : ℚ := (digitsVal ds₁ : ℚ) + (digitsVal ds₂ : ℚ) / (10 : ℚ) ^ ds₂.length
    some (if neg then -mag else mag)

/-- The fixed symbol table of `parsePrice` (`currencyPatterns`), in source
order: `$`, `€`, `£`, `¥`, `₹`, `₽`, `₩`. -/
def currencyPatterns : List (Char × Str) :=
  [('$', ['U','S','D']),
   ('€', ['E','U','R']),
   ('£', ['G','B','P']),
   ('¥', ['J','P','Y']),
   ('₹', ['I','N','R']),
   ('₽', ['R','U','B']),
   ('₩', ['K','R','W'])]

/-- The ISO-code allow-list of the regex
`\b(USD|EUR|GBP|JPY|INR|RUB|KRW|CAD|AUD|CHF)\b`, in source order. -/
def codesList : List Str :=
  [['U','S','D'], ['E','U','R'], ['G','B','P'], ['J','P','Y'], ['I','N','R'],
   ['R','U','B'], ['K','R','W'], ['C','A','D'], ['A','U','D'], ['C','H','F']]

/-- Case-insensitive match of a character `c` against an uppercase ASCII
letter `k` (the `/i` flag of the code regex). -/
def eqCI (c k : Char) : Bool := decide (c = k) || decide (c.toNat = k.toNat + 32)

/-- Does `s` start with the code `k`, case-insensitively? -/
def matchesAt : Str → Str → Bool
  | [], _ => true
  | _ :: _, [] => false
  | a :: ks, c :: cs => eqCI c a && matchesAt ks cs

/-- The `\b` boundary after a matched token: end of string or a non-word
character. -/
def boundaryAfter : Str → Bool
  | [] => true
  | c :: _ => !isWordChar c

/-- Try to match one allow-listed code at the head of `s` (the boundary
before `s` is checked by the caller).  Returns the canonical uppercase code
(the source applies `.toUpperCase()` to the match) and the rest of the
string after the token.  The alternation order of the regex is irrelevant
because two distinct three-letter codes cannot match the same characters. -/
def matchCodeAt (s : Str) : Option (Str × Str) :=
  match codesList.find? (fun k => matchesAt k s && boundaryAfter (s.drop k.length)) with
  | some k => some (k, s.drop k.length)
  | none => none

/-- Left-to-right scan for the first word-boundary-delimited code token,
modelling `cleaned.match(/\b(USD|...)\b/i)`.  `bnd` records whether a `\b`
boundary holds before the current position.  On success returns the
canonical code, the text before the token and the text after it. -/
def findCodeAux : Bool → Str → Option (Str × Str × Str)
  | _, [] => none
  | bnd, c :: cs =>
    match (if bnd then matchCodeAt (c :: cs) else none) with
    | some (k, rest) => some (k, [], rest)
    | none =>
      match findCodeAux (!isWordChar c) cs with
      | some (k, pre, rest) => some (k, c :: pre, rest)
      | none => none

/-- First match of the ISO-code regex in `s` (position `0` counts as a
boundary). -/
def findCode (s : Str) : Option (Str × Str × Str) := findCodeAux true s

/-- `cleaned.includes(symbol)` scan over the symbol table: the first table
entry whose symbol occurs anywhere in the string (`for ... break`). -/
def symbolScan (cleaned : Str) : Option (Char × Str) :=
  currencyPatterns.find? (fun p => cleaned.contains p.1)

/-- The two `throw` sites of `parsePrice`: empty input, and `NaN` after
filtering (`Could not parse price from: ...`). -/
inductive PriceErr
  | emptyText
  | couldNotParse
  deriving DecidableEq

/-- The result of `parsePrice`: `{ price, currency }`. -/
structure PriceResult where
  price : ℚ
  currency : Str
  deriving DecidableEq

/-- The currency-detection stage of `parsePrice` on the trimmed input:
first the symbol scan (first table entry wins, first occurrence of the
symbol erased, result re-trimmed), then the code scan, which overrides the
symbol result and removes the matched token (`cleaned.replace(codePattern,
'')` acts on `cleaned`, not on the symbol-stripped string).  Returns the
selected currency and the remaining price string. -/
def currencyAndRemainder (cleaned : Str) : Str × Str :=
  let afterSymbol : Str × Str :=
    match symbolScan cleaned with
    | some p => (p.2, trim (cleaned.erase p.1))
    | none => (['U','S','D'], cleaned)
  match findCode cleaned with
  | some (k, pre, rest) => (k, trim (pre ++ rest))
  | none => afterSymbol

/-- `parsePrice` from `utils.ts`: trim, detect currency, strip commas and
all characters outside `[\d.-]`, then `parseFloat`. -/
def parsePrice (priceText : Str) : Except PriceErr PriceResult :=
  if priceText = [] then Except.error PriceErr.emptyText
  else
    let cleaned := trim priceText
    let cr := currencyAndRemainder cleaned
    match parseFloatQ (stripNonNumeric (removeCommas cr.2)) with
    | some q => Except.ok { price := q, currency := cr.1 }
    | none => Except.error PriceErr.couldNotParse

/-- A DOM element as the scraper observes it: its text content
(`textContent()`, `null` modelled as `none`) and its attributes
(`getAttribute`, an association list). -/
structure Element where
  textContent : Option Str
  attrs : List (Str × Str)
  deriving DecidableEq

/-- `extractAttribute` from `utils.ts` restricted to a present element:
`element.getAttribute(attribute)`, `null` when absent. -/
def extractAttribute (el : Element) (name : Str) : Option Str :=
  (el.attrs.find? (fun p => p.1 == name)).map Prod.snd

/-- JavaScript truthiness of a nullable string: `null` and `""` are falsy. -/
def truthyStr : Option Str → Option Str
  | some (c :: cs) => some (c :: cs)
  | _ => none

/-- Model of `String.prototype.split` with a single-character separator:
`"".split(sep)` is `[""]`, separators delimit (possibly empty) fields. -/
def splitOn (sep : Char) : Str → List Str
  | [] => [[]]
  | c :: cs =>
    match splitOn sep cs with
    | [] => [[]]
    | r :: rs => if c = sep then [] :: r :: rs else (c :: r) :: rs

/-- Attribute name `src`. -/
def srcAttr : Str := ['s','r','c']

/-- Attribute name `data-src`. -/
def dataSrcAttr : Str := ['d','a','t','a','-','s','r','c']

/-- Attribute name `srcset`. -/
def srcsetAttr : Str := ['s','r','c','s','e','t']

/-- `extractImageUrl` from `utils.ts`: `src` if truthy, else `data-src` if
truthy, else the first whitespace-delimited token of the first
comma-separated entry of `srcset` (`srcset.split(',').map(s =>
s.trim().split(' ')[0])`, then `urls[0] || null`). -/
def extractImageUrl (el : Option Element) : Option Str :=
  match el with
  | none => none
  | some e =>
    match truthyStr (extractAttribute e srcAttr) with
    | some s => some s
    | none =>
      match truthyStr (extractAttribute e dataSrcAttr) with
      | some s => some s
      | none =>
        match truthyStr (extractAttribute e srcsetAttr) with
        | some ss =>
          let urls := (splitOn ',' ss).map (fun entry => (splitOn ' ' (trim entry)).headD [])
          truthyStr (some (urls.headD []))
        | none => none

/-- The distinct failure kinds of `Scraper.scrape`, one per `throw` site of
the price-extraction path: `Price element not found with selector: ...`,
`Price element has no text content`, and the propagated `parsePrice`
errors.  (The source wraps each of these in a
`Failed to scrape <url>: <message>` error; the wrapper carries the message
through unchanged, so the kinds stay distinguishable.) -/
inductive ScrapeErr
  | elementNotFound
  | emptyContent
  | priceParse (e : PriceErr)
  deriving DecidableEq

/-- The `ScrapedData` record assembled by `Scraper.scrape`. -/
structure ScrapedData where
  price : ℚ
  currency : Str
  productName : Option Str
  imageUrl : Option Str
  rawPrice : Str
  deriving DecidableEq

/-- A rendered page as the scraper uses it: `page.$(selector)` returns the
first matching element or `null`. -/
structure PageModel where
  query : Str → Option Element

/-- The inline image-resolution logic of `Scraper.scrape`:
`getAttribute('src')`, and if that is falsy, `getAttribute('data-src')`.
(This is the whole chain: the scrape method never consults `srcset`.) -/
def imageFromElement (el : Element) : Option Str :=
  match truthyStr (extractAttribute el srcAttr) with
  | some u => some u
  | none => extractAttribute el dataSrcAttr

/-- `Scraper.scrape` after navigation and waiting (external I/O): extract
the price element, require truthy text, parse the price, then optionally
extract product name and image URL, and assemble `ScrapedData`. -/
def scrape (pg : PageModel) (priceSelector : Str)
    (nameSelector imageSelector : Option Str) : Except ScrapeErr ScrapedData :=
  match pg.query priceSelector with
  | none => Except.error ScrapeErr.elementNotFound
  | some priceElement =>
    match truthyStr priceElement.textContent with
    | none => Except.error ScrapeErr.emptyContent
    | some priceText =>
      match parsePrice priceText with
      | Except.error e => Except.error (ScrapeErr.priceParse e)
      | Except.ok pr =>
        let productName : Option Str :=
          match nameSelector with
          | none => none
          | some nsel =>
            match pg.query nsel with
            | none => none
            | some nameElement => nameElement.textContent.map trim
        let imageUrl : Option Str :=
          match imageSelector with
          | none => none
          | some isel =>
            match pg.query isel with
            | none => none
            | some imageElement => imageFromElement imageElement
        Except.ok { price := pr.price, currency := pr.currency,
                    productName := productName, imageUrl := imageUrl,
                    rawPrice := trim priceText }

/-- An opaque browser/context/page handle.  `hid` distinguishes handles;
`closeFails` is `some message` when `close()` on the handle throws. -/
structure Handle where
  hid : Nat
  closeFails : Option Str
  deriving DecidableEq

/-- The mutable fields of the `Scraper` class: `browser`, `context`,
`page`, each `null`able. -/
structure ScraperState where
  browser : Option Handle
  context : Option Handle
  page : Option Handle
  deriving DecidableEq

/-- A fresh `Scraper` (`browser = context = page = null`). -/
def emptyScraperState : ScraperState :=
  { browser := none, context := none, page := none }

/-- `ScraperOptions` fields used by `Scraper.initialize`. -/
structure ScraperOptions where
  headless : Option Bool
  userAgent : Option Str
  deriving DecidableEq

/-- The configuration `Scraper.initialize` passes to the engine: headless
flag (`options.headless !== false`), user agent
(`options.userAgent || getUserAgent()`), fixed 1920×1080 viewport. -/
structure SessionConfig where
  headless : Bool
  userAgent : Str
  viewportWidth : Nat
  viewportHeight : Nat
  deriving DecidableEq

/-- `getUserAgent` from `utils.ts`. -/
def getUserAgent : Str :=
  String.toList ("Mozilla/5.0 (Windows NT 10.0; Win64; x64) AppleWebKit/537.36 (KHTML, like Gecko) Chrome/120.0.0.0 Safari/537.36 CompetitorTracker/1.0")

/-- `Scraper.initialize` (the Session Manager `ensureReady`): if a browser
is already live, return at once doing no work (`none` in the second
component); otherwise create engine, context and page.  Handle creation is
external I/O, so the would-be fresh handles are passed in as `fresh`;
the second component reports the configuration used when work was done. -/
def ensureReady (fresh : Handle × Handle × Handle) (options : ScraperOptions)
    (st : ScraperState) : ScraperState × Option SessionConfig :=
  if st.browser.isSome then (st, none)
  else
    ({ browser := some fresh.1, context := some fresh.2.1, page := some fresh.2.2 },
     some { headless := !(options.headless == some false),
            userAgent := options.userAgent.getD getUserAgent,
            viewportWidth := 1920, viewportHeight := 1080 })

/-- The three teardown levels of `Scraper.close`, in close order. -/
inductive CloseLevel
  | page
  | context
  | browser
  deriving DecidableEq

/-- One guarded step of `Scraper.close`: absent handle — nothing to do
(`ok false`); present handle — `close()` succeeds (`ok true`) or throws. -/
def closeHandle : Option Handle → Except Str Bool
  | none => Except.ok false
  | some h =>
    match h.closeFails with
    | none => Except.ok true
    | some e => Except.error e

/-- `Scraper.close`: close page, context, browser in that order, nulling
each reference after its successful close; each step is guarded by a null
check only, so a throwing `close()` propagates immediately and the later
steps never run.  Returns the resulting state, the propagated error (if
any) and the list of levels whose `close()` ran to completion. -/
def close (st : ScraperState) : ScraperState × Option Str × List CloseLevel :=
  match closeHandle st.page with
  | Except.error e => (st, some e, [])
  | Except.ok pClosed =>
    let st₁ : ScraperState := { st with page := none }
    let trace₁ := if pClosed then [CloseLevel.page] else []
    match closeHandle st₁.context with
    | Except.error e => (st₁, some e, trace₁)
    | Except.ok cClosed =>
      let st₂ : ScraperState := { st₁ with context := none }
      let trace₂ := trace₁ ++ (if cClosed then [CloseLevel.context] else [])
      match closeHandle st₂.browser with
      | Except.error e => (st₂, some e, trace₂)
      | Except.ok bClosed =>
        ({ st₂ with browser := none }, none,
         trace₂ ++ (if bClosed then [CloseLevel.browser] else []))

/-- The exponential-backoff `retry` of `utils.ts`, reindexed by the number
of remaining loop iterations (`remaining = maxRetries - attempt`, so the
source guard `attempt < maxRetries - 1` becomes `remaining > 1`).  The
`i`-th invocation of the operation is modelled as `fn i`; the result
carries the outcome (`Except.error last` models `throw lastError!`, where
`none` is the uninitialized `undefined`), the number of invocations
performed, and the list of sleep durations in order. -/
def retryGo {E A : Type} (fn : Nat → Except E A) (baseDelay : ℚ) :
    Nat → Nat → Option E → Except (Option E) A × Nat × List ℚ
  | 0, _, last => (Except.error last, 0, [])
  | r + 1, attempt, _ =>
    match fn attempt with
    | Except.ok a => (Except.ok a, 1, [])
    | Except.error e =>
      let rest := retryGo fn baseDelay r (attempt + 1) (some e)
      if r = 0 then (rest.1, rest.2.1 + 1, rest.2.2)
      else (rest.1, rest.2.1 + 1, baseDelay * 2 ^ attempt :: rest.2.2)

/-- `retry(fn, maxRetries, baseDelay)` from `utils.ts` (source defaults:
`maxRetries = 3`, `baseDelay = 1000`).  `maxRetries` is an integer so that
non-positive values — for which the `for` loop body never runs — are
representable. -/
def retry {E A : Type} (fn : Nat → Except E A) (maxRetries : Int)
    (baseDelay : ℚ) : Except (Option E) A × Nat × List ℚ :=
  retryGo fn baseDelay maxRetries.toNat 0 none

/-- One entry of the `scrapeBatch` request list. -/
structure BatchRequest where
  url : Str
  priceSelector : Str
  nameSelector : Option Str
  imageSelector : Option Str
  deriving DecidableEq

/-- One entry of the `scrapeBatch` result list:
`{success: true, data, url}` or `{success: false, error, url}`. -/
inductive BatchOutcome
  | success (data : ScrapedData) (url : Str)
  | failure (error : Str) (url : Str)
  deriving DecidableEq

/-- The `try`/`catch` around one target inside the `scrapeBatch` loop.
`runTarget` abstracts `scrapeWithRetry` for the target (navigation and
retries are external I/O): `ok` is the scraped data, `error` the final
error message after retries. -/
def runOutcome (runTarget : BatchRequest → Except Str ScrapedData)
    (r : BatchRequest) : BatchOutcome :=
  match runTarget r with
  | Except.ok d => BatchOutcome.success d r.url
  | Except.error e => BatchOutcome.failure e r.url

/-- `Scraper.scrapeBatch`: process the requests strictly in order,
pushing one outcome per request; a failure is caught and recorded, never
aborting the loop. -/
def scrapeBatch (runTarget : BatchRequest → Except Str ScrapedData) :
    List BatchRequest → List BatchOutcome
  | [] => []
  | r :: rs => runOutcome runTarget r :: scrapeBatch runTarget rs

/-! Concrete example inputs used by the claim theorems, witnesses and
counterexamples. -/

/-- The code `USD` as a string. -/
def usdCode : Str := ['U','S','D']

/-- The code `EUR` as a string. -/
def eurCode : Str := ['E','U','R']

/-- The spec example `"$50 EUR"`. -/
def dollarFiftyEur : Str := ['$','5','0',' ','E','U','R']

/-- `"$50 "` — the spec example with the code token removed. -/
def dollarFifty : Str := ['$','5','0',' ']

/-- `"€$5 EUR"`: two currency symbols plus a code token. -/
def twoSymbolsWithCode : Str := ['€','$','5',' ','E','U','R']

/-- `"€9 $5"`: the euro symbol occurs before the dollar symbol. -/
def euroBeforeDollar : Str := ['€','9',' ','$','5']

/-- The spec example `"$19.99 - $29.99"` (a price range). -/
def rangeInput : Str := ['$','1','9','.','9','9',' ','-',' ','$','2','9','.','9','9']

/-- The example `"1.2.3"`. -/
def dotsInput : Str := ['1','.','2','.','3']

/-- `"x3"`: filtered remainder `"3"`. -/
def xThreeInput : Str := ['x','3']

/-- An element carrying only `srcset="a.jpg 1x, b.jpg 2x"`. -/
def elSrcsetOnly : Element :=
  { textContent := none,
    attrs := [(srcsetAttr, String.toList ("a.jpg 1x, b.jpg 2x"))] }

/-- An element carrying both `src="s.jpg"` and `data-src="d.jpg"`. -/
def elSrcAndDataSrc : Element :=
  { textContent := none,
    attrs := [(srcAttr, String.toList ("s.jpg")),
              (dataSrcAttr, String.toList ("d.jpg"))] }

/-- `"a.jpg"`. -/
def aJpg : Str := String.toList ("a.jpg")

/-- `"s.jpg"`. -/
def sJpg : Str := String.toList ("s.jpg")

/-- A price element with text `"$5"`. -/
def fiveDollarElement : Element := { textContent := some ['$','5'], attrs := [] }

/-- A page on which selector `"p"` hits a `"$5"` price element and selector
`"i"` hits the `srcset`-only element. -/
def pageWithSrcsetImage : PageModel :=
  ⟨fun s => if s = ['p'] then some fiveDollarElement
            else if s = ['i'] then some elSrcsetOnly else none⟩

/-- A page on which selector `"i"` hits the element that has both `src`
and `data-src`. -/
def pageWithBothImage : PageModel :=
  ⟨fun s => if s = ['p'] then some fiveDollarElement
            else if s = ['i'] then some elSrcAndDataSrc else none⟩

/-- A page whose price element has whitespace-only text content `" "`. -/
def pageWithWhitespacePrice : PageModel :=
  ⟨fun s => if s = ['p'] then some { textContent := some [' '], attrs := [] }
            else none⟩

/-- A page with no matching elements at all. -/
def pageEmpty : PageModel := ⟨fun _ => none⟩

/-- A page whose price element has empty text content `""`. -/
def pageWithEmptyPrice : PageModel :=
  ⟨fun s => if s = ['p'] then some { textContent := some [], attrs := [] }
            else none⟩

/-- Batch target `A` (`url "a"`), which will fail. -/
def targetA : BatchRequest := { url := ['a'], priceSelector := ['p'], nameSelector := none, imageSelector := none }

/-- Batch target `B` (`url "b"`), which will succeed. -/
def targetB : BatchRequest := { url := ['b'], priceSelector := ['p'], nameSelector := none, imageSelector := none }

/-- Batch target `C` (`url "c"`), which will fail. -/
def targetC : BatchRequest := { url := ['c'], priceSelector := ['p'], nameSelector := none, imageSelector := none }

/-- The data target `B` yields. -/
def exScrapedData : ScrapedData :=
  { price := 5, currency := usdCode, productName := none, imageUrl := none,
    rawPrice := ['$','5'] }

/-- A per-target runner on which only target `B` succeeds; the failure
message for a failing target is its URL. -/
def exRunTarget : BatchRequest → Except Str ScrapedData :=
  fun t => if t.url = ['b'] then Except.ok exScrapedData else Except.error t.url

/-- A handle whose `close()` succeeds. -/
def okHandle (n : Nat) : Handle := { hid := n, closeFails := none }

/-- A handle whose `close()` throws `"x"`. -/
def badHandle (n : Nat) : Handle := { hid := n, closeFails := some ['x'] }

/-- A scraper whose page close throws while context and browser would
close fine. -/
def stPageCloseFails : ScraperState :=
  { browser := some (okHandle 2), context := some (okHandle 1),
    page := some (badHandle 0) }

/-- A scraper whose context close throws while page and browser would
close fine. -/
def stContextCloseFails : ScraperState :=
  { browser := some (okHandle 2), context := some (badHandle 1),
    page := some (okHandle 0) }

/-! Supporting lemmas about the filtering pipeline of `parsePrice`.  The
key observation: the currency-detection stage only removes characters that
the `[^\d.-]` filter would drop anyway (whitespace, currency symbols,
code-token letters), so the filtered numeric string is an invariant of the
whole pipeline. -/

theorem isSpaceChar_not_numKeep {c : Char} (h : isSpaceChar c = true) :
    numKeep c = false := by
  simp only [isSpaceChar, decide_eq_true_eq] at h
  rcases h with h | h | h | h <;> subst h <;> decide

theorem filter_dropWhile_space (s : Str) :
    (s.dropWhile isSpaceChar).filter numKeep = s.filter numKeep := by
  induction s with
  | nil => rfl
  | cons c t ih =>
    rw [List.dropWhile_cons]
    by_cases hc : isSpaceChar c = true
    · rw [if_pos hc, ih]
      simp [List.filter_cons, isSpaceChar_not_numKeep hc]
    · rw [if_neg hc]

theorem filter_trim (s : Str) :
    (trim s).filter numKeep = s.filter numKeep := by
  unfold trim
  rw [List.filter_reverse, filter_dropWhile_space, List.filter_reverse,
    List.reverse_reverse, filter_dropWhile_space]

theorem stripNonNumeric_removeCommas (s : Str) :
    stripNonNumeric (removeCommas s) = stripNonNumeric s := by
  unfold stripNonNumeric removeCommas
  rw [List.filter_filter]
  refine List.filter_congr ?_
  intro a _
  by_cases h : a = ','
  · subst h; decide
  · simp [h]

theorem filter_erase_of_not_numKeep (s : Str) {c : Char}
    (hc : numKeep c = false) :
    (s.erase c).filter numKeep = s.filter numKeep := by
  induction s with
  | nil => rfl
  | cons a t ih =>
    rw [List.erase_cons]
    by_cases ha : a = c
    · subst ha
      rw [if_pos (by simp)]
      simp [List.filter_cons, hc]
    · rw [if_neg (by simpa using ha)]
      simp only [List.filter_cons]
      by_cases hk : numKeep a = true
      · simp [hk, ih]
      · simp [hk, ih]

theorem currencyPatterns_not_numKeep :
    ∀ p ∈ currencyPatterns, numKeep p.1 = false := by decide

theorem codesList_upper :
    ∀ k ∈ codesList, ∀ a ∈ k, 65 ≤ a.toNat ∧ a.toNat ≤ 90 := by decide

theorem eqCI_not_numKeep {c a : Char} (h : eqCI c a = true)
    (h₁ : 65 ≤ a.toNat) (h₂ : a.toNat ≤ 90) : numKeep c = false := by
  simp only [eqCI, Bool.or_eq_true, decide_eq_true_eq] at h
  have hc : c.toNat = a.toNat ∨ c.toNat = a.toNat + 32 := by
    rcases h with h | h
    · exact Or.inl (by rw [h])
    · exact Or.inr h
  simp only [numKeep, isDigitChar, Bool.or_eq_false_iff,
    decide_eq_false_iff_not]
  refine ⟨⟨?_, ?_⟩, ?_⟩
  · rintro ⟨hl, hr⟩; omega
  · rintro rfl; simp at hc; omega
  · rintro rfl; simp at hc; omega

theorem matchesAt_take_mem {k s : Str} (h : matchesAt k s = true) :
    ∀ c ∈ s.take k.length, ∃ a ∈ k, eqCI c a = true := by
  induction k generalizing s with
  | nil => simp
  | cons a ks ih =>
    cases s with
    | nil => simp [matchesAt] at h
    | cons c cs =>
      simp only [matchesAt, Bool.and_eq_true] at h
      intro x hx
      simp only [List.length_cons, List.take_succ_cons, List.mem_cons] at hx
      rcases hx with rfl | hx
      · exact ⟨a, List.mem_cons_self a ks, h.1⟩
      · obtain ⟨b, hb, he⟩ := ih h.2 x hx
        exact ⟨b, List.mem_cons_of_mem a hb, he⟩

theorem matchCodeAt_decomp {s k rest : Str}
    (h : matchCodeAt s = some (k, rest)) :
    ∃ raw, s = raw ++ rest ∧ raw.filter numKeep = [] := by
  unfold matchCodeAt at h
  cases hf : codesList.find?
      (fun k => matchesAt k s && boundaryAfter (s.drop k.length)) with
  | none => rw [hf] at h; cases h
  | some k₀ =>
    rw [hf] at h
    cases h
    have hmem := List.mem_of_find?_eq_some hf
    have hp := List.find?_some hf
    simp only [Bool.and_eq_true] at hp
    refine ⟨s.take k.length, ?_, ?_⟩
    · exact (List.take_append_drop k.length s).symm
    · rw [List.filter_eq_nil_iff]
      intro c hc
      obtain ⟨a, ha, he⟩ := matchesAt_take_mem hp.1 c hc
      have := codesList_upper _ hmem a ha
      simp [eqCI_not_numKeep he this.1 this.2]

theorem findCodeAux_decomp {bnd : Bool} {s k pre rest : Str}
    (h : findCodeAux bnd s = some (k, pre, rest)) :
    ∃ raw, s = pre ++ (raw ++ rest) ∧ raw.filter numKeep = [] := by
  induction s generalizing bnd pre with
  | nil => simp [findCodeAux] at h
  | cons c cs ih =>
    unfold findCodeAux at h
    cases hm : (if bnd then matchCodeAt (c :: cs) else none) with
    | some v =>
      obtain ⟨k₀, rest₀⟩ := v
      rw [hm] at h
      cases h
      have hmc : matchCodeAt (c :: cs) = some (k, rest) := by
        by_cases hb : bnd <;> simp [hb] at hm
        · exact hm
      obtain ⟨raw, hs, hraw⟩ := matchCodeAt_decomp hmc
      exact ⟨raw, by simpa using hs, hraw⟩
    | none =>
      rw [hm] at h
      cases hr : findCodeAux (!isWordChar c) cs with
      | none => rw [hr] at h; cases h
      | some v =>
        obtain ⟨k₁, pre₁, rest₁⟩ := v
        rw [hr] at h
        cases h
        obtain ⟨raw, hs, hraw⟩ := ih hr
        exact ⟨raw, by simp [hs], hraw⟩

theorem currencyAndRemainder_filter (cleaned : Str) :
    stripNonNumeric (removeCommas (currencyAndRemainder cleaned).2) =
      stripNonNumeric cleaned := by
  unfold currencyAndRemainder
  cases hfc : findCode cleaned with
  | some t =>
    obtain ⟨k, pre, rest⟩ := t
    simp only [hfc]
    obtain ⟨raw, hs, hraw⟩ := findCodeAux_decomp hfc
    rw [stripNonNumeric_removeCommas]
    unfold stripNonNumeric
    rw [filter_trim, hs]
    simp [List.filter_append, hraw]
  | none =>
    cases hss : symbolScan cleaned with
    | some p =>
      simp only [hfc, hss]
      rw [stripNonNumeric_removeCommas]
      unfold stripNonNumeric
      rw [filter_trim]
      exact filter_erase_of_not_numKeep cleaned
        (currencyPatterns_not_numKeep p (List.mem_of_find?_eq_some hss))
    | none =>
      simp only [hfc, hss]
      rw [stripNonNumeric_removeCommas]

theorem parsePrice_eq (s : Str) (hne : ¬s = []) :
    parsePrice s =
      match parseFloatQ (stripNonNumeric s) with
      | some q =>
        Except.ok { price := q, currency := (currencyAndRemainder (trim s)).1 }
      | none => Except.error PriceErr.couldNotParse := by
  have h1 : stripNonNumeric (removeCommas (currencyAndRemainder (trim s)).2) =
      stripNonNumeric s := by
    rw [currencyAndRemainder_filter (trim s)]
    exact filter_trim s
  simp only [parsePrice]
  rw [if_neg hne, h1]

theorem parsePrice_ok_price {s : Str} {r : PriceResult}
    (h : parsePrice s = Except.ok r) :
    parseFloatQ (stripNonNumeric s) = some r.price ∧
      r.currency = (currencyAndRemainder (trim s)).1 := by
  have hne : ¬s = [] := by
    rintro rfl
    simp [parsePrice] at h
  rw [parsePrice_eq s hne] at h
  cases hq : parseFloatQ (stripNonNumeric s) with
  | none => rw [hq] at h; cases h
  | some q =>
    rw [hq] at h
    cases h
    exact ⟨rfl, rfl⟩

theorem parsePrice_of_parseFloatQ {s : Str} {q : ℚ} (hne : ¬s = [])
    (h : parseFloatQ (stripNonNumeric s) = some q) :
    parsePrice s =
      Except.ok { price := q, currency := (currencyAndRemainder (trim s)).1 } := by
  rw [parsePrice_eq s hne, h]

theorem parseFloatQ_nil : parseFloatQ [] = none := rfl

theorem takeWhile_all {p : Char → Bool} :
    ∀ {ds : Str}, (∀ c ∈ ds, p c = true) → ds.takeWhile p = ds
  | [], _ => rfl
  | c :: t, h => by
    rw [List.takeWhile_cons_of_pos (h c (List.mem_cons_self c t))]
    rw [takeWhile_all (fun x hx => h x (List.mem_cons_of_mem _ hx))]

theorem takeWhile_app {p : Char → Bool} (x : Char) (hx : p x = false) :
    ∀ {ds : Str} (t : Str), (∀ c ∈ ds, p c = true) →
      (ds ++ x :: t).takeWhile p = ds ∧ (ds ++ x :: t).dropWhile p = x :: t
  | [], t, _ => by
    constructor
    · simp [List.takeWhile_cons, hx]
    · simp [List.dropWhile_cons, hx]
  | c :: cs, t, h => by
    have hc := h c (List.mem_cons_self c cs)
    have ih := takeWhile_app x hx t (fun y hy => h y (List.mem_cons_of_mem _ hy))
    constructor
    · simpa [List.takeWhile_cons_of_pos hc] using ih.1
    · simpa [List.dropWhile_cons, hc] using ih.2

theorem parseFloatQ_app (ds₁ ds₂ rest : Str)
    (h₁ : ∀ c ∈ ds₁, isDigitChar c = true)
    (h₂ : ∀ c ∈ ds₂, isDigitChar c = true)
    (hne : ds₁ ≠ [])
    (hrest : ∀ c, rest.head? = some c → isDigitChar c = false) :
    parseFloatQ (ds₁ ++ '.' :: (ds₂ ++ rest)) =
      some ((digitsVal ds₁ : ℚ) + (digitsVal ds₂ : ℚ) / (10 : ℚ) ^ ds₂.length) := by
  obtain ⟨d, ds₁', rfl⟩ : ∃ d t, ds₁ = d :: t := by
    cases ds₁ with
    | nil => exact absurd rfl hne
    | cons d t => exact ⟨d, t, rfl⟩
  have hd : isDigitChar d = true := h₁ d (List.mem_cons_self d ds₁')
  have hdm : ¬(d = '-') := by rintro rfl; exact absurd hd (by decide)
  have hdp : ¬(d = '+') := by rintro rfl; exact absurd hd (by decide)
  have htw := takeWhile_app '.' (by decide) (ds₂ ++ rest) h₁
  have hds₂ : (ds₂ ++ rest).takeWhile isDigitChar = ds₂ := by
    cases hrc : rest with
    | nil => simpa using takeWhile_all h₂
    | cons c t =>
      exact (takeWhile_app c (hrest c (by rw [hrc]; rfl)) t h₂).1
  have hsign : ¬(d = '-' ∨ d = '+') := fun h => h.elim hdm hdp
  have htw1 : (d :: (ds₁' ++ '.' :: (ds₂ ++ rest))).takeWhile isDigitChar =
      d :: ds₁' := by simpa [List.cons_append] using htw.1
  have htw2 : (d :: (ds₁' ++ '.' :: (ds₂ ++ rest))).dropWhile isDigitChar =
      '.' :: (ds₂ ++ rest) := by simpa [List.cons_append] using htw.2
  simp only [parseFloatQ, List.cons_append, List.head?_cons, Option.some.injEq]
  rw [if_neg hsign, htw1, htw2]
  simp [hds₂, decide_eq_false hdm]

/-- Helper for evaluating `parsePrice` at concrete inputs: the string
pipeline is decided by the kernel, only the final rational value needs
arithmetic. -/
theorem parsePrice_concrete (s fs : Str) (q : ℚ) (cur : Str)
    (hne : ¬s = []) (hfs : stripNonNumeric s = fs)
    (hq : parseFloatQ fs = some q)
    (hcur : (currencyAndRemainder (trim s)).1 = cur) :
    parsePrice s = Except.ok { price := q, currency := cur } := by
  rw [← hcur]
  exact parsePrice_of_parseFloatQ hne (by rw [hfs]; exact hq)

/-! ## The claims -/

/-- C1: for every input containing both a known currency symbol and an
allow-listed ISO code token, `parsePrice` returns the currency of the code
token (the code overrides the symbol), and the numeric amount equals the
amount obtained from the same input with the code token removed
(`pre ++ rest` is the trimmed input with the matched token deleted). -/
theorem c1_code_token_overrides_symbol (s tok pre rest : Str) (r : PriceResult)
    (_hsym : ∃ p ∈ currencyPatterns, (trim s).contains p.1 = true)
    (hcode : findCode (trim s) = some (tok, pre, rest))
    (hr : parsePrice s = Except.ok r) :
    r.currency = tok ∧
      Except.map PriceResult.price (parsePrice (pre ++ rest)) =
        Except.ok r.price := by
  obtain ⟨hq, hcur⟩ := parsePrice_ok_price hr
  obtain ⟨raw, hs, hraw⟩ := findCodeAux_decomp hcode
  have hfil : stripNonNumeric (pre ++ rest) = stripNonNumeric s := by
    have h2 : stripNonNumeric (trim s) = stripNonNumeric s := filter_trim s
    rw [← h2, hs]
    simp [stripNonNumeric, List.filter_append, hraw]
  refine ⟨?_, ?_⟩
  · rw [hcur]
    simp [currencyAndRemainder, hcode]
  · have hne2 : ¬(pre ++ rest = []) := by
      intro h0
      rw [h0] at hfil
      rw [← hfil, show stripNonNumeric ([] : Str) = [] from rfl,
        parseFloatQ_nil] at hq
      cases hq
    rw [parsePrice_of_parseFloatQ hne2 (by rw [hfil]; exact hq)]
    rfl

/-- C1 witness: on `"$50 EUR"` the claim theorem applies with result
`(50, EUR)`, and the input minus the code token (`"$50 "`) parses to the
same amount `50`. -/
theorem c1_code_token_overrides_symbol_witness :
    ({ price := 50, currency := eurCode } : PriceResult).currency = eurCode ∧
      Except.map PriceResult.price (parsePrice (dollarFifty ++ ([] : Str))) =
        Except.ok (50 : ℚ) := by
  have h50 : parsePrice dollarFiftyEur =
      Except.ok { price := 50, currency := eurCode } := by
    refine parsePrice_concrete dollarFiftyEur ['5','0'] 50 eurCode
      (by decide) (by decide) ?_ (by decide)
    simp +decide [parseFloatQ, isDigitChar, digitsVal]
  exact c1_code_token_overrides_symbol dollarFiftyEur eurCode dollarFifty []
    { price := 50, currency := eurCode } (by decide) (by decide) h50

/-- C2 counterexample: `"€$5 EUR"` contains more than one known currency
symbol (`€` and `$`), and the first matching entry of the symbol table is
`('$', USD)`, yet `parsePrice` returns currency `"EUR"` — the co-occurring
code token overrides the symbol choice, so the claim as stated (over
*every* input with several symbols) is false. -/
theorem c2_counterexample :
    twoSymbolsWithCode.contains '$' = true ∧
      twoSymbolsWithCode.contains '€' = true ∧
      symbolScan (trim twoSymbolsWithCode) = some ('$', usdCode) ∧
      parsePrice twoSymbolsWithCode =
        Except.ok { price := 5, currency := eurCode } ∧
      ¬eurCode = usdCode := by
  refine ⟨by decide, by decide, by decide, ?_, by decide⟩
  refine parsePrice_concrete twoSymbolsWithCode ['5'] 5 eurCode
    (by decide) (by decide) ?_ (by decide)
  simp +decide [parseFloatQ, isDigitChar, digitsVal]

/-- C2 amended: provided the input contains no allow-listed ISO code token
(which would override the symbol scan, as in C1), the currency is the code
of the *first matching entry of the symbol table* (`symbolScan` is
`find?` over the table in source order), not of the symbol occurring first
in the string. -/
theorem c2_first_table_entry_wins (s : Str) (p : Char × Str) (r : PriceResult)
    (hcode : findCode (trim s) = none)
    (hfind : symbolScan (trim s) = some p)
    (hr : parsePrice s = Except.ok r) :
    r.currency = p.2 := by
  obtain ⟨_, hcur⟩ := parsePrice_ok_price hr
  rw [hcur]
  simp [currencyAndRemainder, hcode, hfind]

/-- C2 witness: in `"€9 $5"` the euro sign occurs before the dollar sign,
there is no code token, the first matching table entry is `('$', USD)`,
and the parsed currency is `"USD"`. -/
theorem c2_first_table_entry_wins_witness :
    findCode (trim euroBeforeDollar) = none ∧
      symbolScan (trim euroBeforeDollar) = some ('$', usdCode) ∧
      ({ price := 95, currency := usdCode } : PriceResult).currency = usdCode := by
  have h95 : parsePrice euroBeforeDollar =
      Except.ok { price := 95, currency := usdCode } := by
    refine parsePrice_concrete euroBeforeDollar ['9','5'] 95 usdCode
      (by decide) (by decide) ?_ (by decide)
    simp +decide [parseFloatQ, isDigitChar, digitsVal]
  exact ⟨by decide, by decide,
    c2_first_table_entry_wins euroBeforeDollar ('$', usdCode)
      { price := 95, currency := usdCode } (by decide) (by decide) h95⟩

/-- C10: `parsePrice` succeeds whenever the character-filtered remainder
begins with a valid numeric prefix, returning the value of the longest
numeric prefix rather than failing: (i) whenever `parseFloat`'s
longest-prefix grammar recovers a value `q` from the filtered input,
`parsePrice` succeeds with amount `q`; (ii) the grammar takes exactly the
longest numeric prefix `ds₁.ds₂` of a string continuing with a
non-digit; (iii) on `"$19.99 - $29.99"` (filtered to `"19.99-29.99"`) the
amount is `19.99` with no error, and (iv) on `"1.2.3"` it is `1.2`. -/
theorem c10_longest_numeric_prefix :
    (∀ (s : Str) (q : ℚ), ¬s = [] → parseFloatQ (stripNonNumeric s) = some q →
      Except.map PriceResult.price (parsePrice s) = Except.ok q) ∧
    (∀ (ds₁ ds₂ rest : Str),
      (∀ c ∈ ds₁, isDigitChar c = true) → (∀ c ∈ ds₂, isDigitChar c = true) →
      ds₁ ≠ [] → (∀ c, rest.head? = some c → isDigitChar c = false) →
      parseFloatQ (ds₁ ++ '.' :: (ds₂ ++ rest)) =
        some ((digitsVal ds₁ : ℚ) + (digitsVal ds₂ : ℚ) / (10 : ℚ) ^ ds₂.length)) ∧
    Except.map PriceResult.price (parsePrice rangeInput) =
      Except.ok ((1999 : ℚ) / 100) ∧
    Except.map PriceResult.price (parsePrice dotsInput) =
      Except.ok ((6 : ℚ) / 5) := by
  have hgen : ∀ (s : Str) (q : ℚ), ¬s = [] →
      parseFloatQ (stripNonNumeric s) = some q →
      Except.map PriceResult.price (parsePrice s) = Except.ok q := by
    intro s q hne hq
    rw [parsePrice_of_parseFloatQ hne hq]
    rfl
  refine ⟨hgen, fun ds₁ ds₂ rest h₁ h₂ hne hrest =>
    parseFloatQ_app ds₁ ds₂ rest h₁ h₂ hne hrest, ?_, ?_⟩
  · refine hgen rangeInput ((1999 : ℚ) / 100) (by decide) ?_
    rw [show stripNonNumeric rangeInput =
      ['1','9','.','9','9','-','2','9','.','9','9'] from by decide]
    simp +decide [parseFloatQ, isDigitChar, digitsVal]
    norm_num
  · refine hgen dotsInput ((6 : ℚ) / 5) (by decide) ?_
    rw [show stripNonNumeric dotsInput = ['1','.','2','.','3'] from by decide]
    simp +decide [parseFloatQ, isDigitChar, digitsVal]
    norm_num

/-- C10 witness: part (i) of the claim theorem applied at `"x3"`
(filtered remainder `"3"`), and part (ii) applied at `ds₁ = "1"`,
`ds₂ = "2"`, `rest = ".3"`. -/
theorem c10_longest_numeric_prefix_witness :
    Except.map PriceResult.price (parsePrice xThreeInput) = Except.ok (3 : ℚ) ∧
      parseFloatQ (['1'] ++ '.' :: (['2'] ++ ['.','3'])) =
        some ((digitsVal ['1'] : ℚ) + (digitsVal ['2'] : ℚ) / (10 : ℚ) ^ (['2'] : Str).length) := by
  constructor
  · refine c10_longest_numeric_prefix.1 xThreeInput 3 (by decide) ?_
    rw [show stripNonNumeric xThreeInput = ['3'] from by decide]
    simp +decide [parseFloatQ, isDigitChar, digitsVal]
  · exact c10_longest_numeric_prefix.2.1 ['1'] ['2'] ['.','3']
      (by decide) (by decide) (by decide) (by decide)

/-- C3 counterexample: on a page whose image element carries only
`srcset="a.jpg 1x, b.jpg 2x"`, the scrape operation yields *no* image URL
(it never consults `srcset`), although the utility `extractImageUrl`
would yield `"a.jpg"` — so the claimed three-step fallback does not hold
for the scrape operation. -/
theorem c3_counterexample :
    Except.map ScrapedData.imageUrl
        (scrape pageWithSrcsetImage ['p'] none (some ['i'])) =
      Except.ok (none : Option Str) ∧
      extractImageUrl (some elSrcsetOnly) = some aJpg ∧
      ¬(none : Option Str) = some aJpg := by decide

/-- C3 amended: in the scrape operation the image URL of a matched element
is resolved by `src` (if truthy) else `data-src` only (`imageFromElement`);
an element with both `src` and `data-src` yields the `src` value; the
`srcset` fallback (first whitespace-delimited token of the first
comma-separated entry) is implemented by the utility `extractImageUrl`,
which the scrape operation does not invoke, so an element carrying only
`srcset` yields no image URL from scrape even though `extractImageUrl`
returns `"a.jpg"` on it. -/
theorem c3_scrape_image_fallback :
    (∀ (pg : PageModel) (psel isel : Str) (d : ScrapedData),
      scrape pg psel none (some isel) = Except.ok d →
      d.imageUrl = Option.bind (pg.query isel) imageFromElement) ∧
    Except.map ScrapedData.imageUrl
        (scrape pageWithBothImage ['p'] none (some ['i'])) =
      Except.ok (some sJpg) ∧
    extractImageUrl (some elSrcAndDataSrc) = some sJpg ∧
    extractImageUrl (some elSrcsetOnly) = some aJpg ∧
    imageFromElement elSrcsetOnly = none := by
  refine ⟨?_, by decide, by decide, by decide, by decide⟩
  intro pg psel isel d h
  unfold scrape at h
  split at h
  · cases h
  · split at h
    · cases h
    · split at h
      · cases h
      · cases h
        cases hi : pg.query isel <;> simp [hi]

/-- C3 witness: the general part of the amended theorem applied to the
page whose image element has both `src` and `data-src`; the resolved URL
is the `src` value. -/
theorem c3_scrape_image_fallback_witness :
    ({ price := 5, currency := usdCode, productName := none,
       imageUrl := some sJpg, rawPrice := ['$','5'] } : ScrapedData).imageUrl =
      Option.bind (pageWithBothImage.query ['i']) imageFromElement := by
  have h5 : parsePrice ['$','5'] = Except.ok { price := 5, currency := usdCode } := by
    refine parsePrice_concrete ['$','5'] ['5'] 5 usdCode
      (by decide) (by decide) ?_ (by decide)
    simp +decide [parseFloatQ, isDigitChar, digitsVal]
  have hd : scrape pageWithBothImage ['p'] none (some ['i']) = Except.ok
      { price := 5, currency := usdCode, productName := none,
        imageUrl := some sJpg, rawPrice := ['$','5'] } := by
    simp +decide [scrape, pageWithBothImage, h5, fiveDollarElement,
      elSrcAndDataSrc, truthyStr, imageFromElement, extractAttribute,
      trim, isSpaceChar, srcAttr, dataSrcAttr, sJpg]
  exact c3_scrape_image_fallback.1 pageWithBothImage ['p'] ['i'] _ hd

/-- C4 counterexample: a matched price element whose text content is the
whitespace-only string `" "` makes the scrape operation fail with the
normalizer's parse error, not with the `EmptyContent` kind (`" "` is
truthy in JavaScript, so the `!priceText` guard does not fire). -/
theorem c4_counterexample :
    scrape pageWithWhitespacePrice ['p'] none none =
      Except.error (ScrapeErr.priceParse PriceErr.couldNotParse) ∧
      ¬(ScrapeErr.priceParse PriceErr.couldNotParse = ScrapeErr.emptyContent) := by
  decide

/-- C4 amended: the scrape operation raises distinct failure kinds:
`ElementNotFound` when no element matches the price selector, and
`EmptyContent` when the matched element's text content is `null` or the
empty string; a *whitespace-only* text content instead reaches the
normalizer and fails with its parse error. -/
theorem c4_error_kinds :
    (∀ (pg : PageModel) (psel : Str) (nsel isel : Option Str),
      pg.query psel = none →
      scrape pg psel nsel isel = Except.error ScrapeErr.elementNotFound) ∧
    (∀ (pg : PageModel) (psel : Str) (nsel isel : Option Str) (el : Element),
      pg.query psel = some el →
      (el.textContent = none ∨ el.textContent = some []) →
      scrape pg psel nsel isel = Except.error ScrapeErr.emptyContent) ∧
    ¬(ScrapeErr.elementNotFound = ScrapeErr.emptyContent) ∧
    scrape pageWithWhitespacePrice ['p'] none none =
      Except.error (ScrapeErr.priceParse PriceErr.couldNotParse) := by
  refine ⟨?_, ?_, by decide, by decide⟩
  · intro pg psel nsel isel h
    unfold scrape
    rw [h]
  · intro pg psel nsel isel el h ht
    have htr : truthyStr el.textContent = none := by
      rcases ht with ht | ht <;> rw [ht] <;> rfl
    unfold scrape
    rw [h]
    dsimp only
    rw [htr]

/-- C4 witness: the amended theorem applied to a page with no matching
element and to a page whose price element has empty text. -/
theorem c4_error_kinds_witness :
    scrape pageEmpty ['p'] none none = Except.error ScrapeErr.elementNotFound ∧
      scrape pageWithEmptyPrice ['p'] none none =
        Except.error ScrapeErr.emptyContent :=
  ⟨c4_error_kinds.1 pageEmpty ['p'] none none rfl,
   c4_error_kinds.2.1 pageWithEmptyPrice ['p'] none none
     { textContent := some [], attrs := [] } rfl (Or.inr rfl)⟩

theorem retryGo_succ {E A : Type} (fn : Nat → Except E A) (d : ℚ)
    (r attempt : Nat) (last : Option E) :
    retryGo fn d (r + 1) attempt last =
      match fn attempt with
      | Except.ok a => (Except.ok a, 1, [])
      | Except.error e =>
        let rest := retryGo fn d r (attempt + 1) (some e)
        if r = 0 then (rest.1, rest.2.1 + 1, rest.2.2)
        else (rest.1, rest.2.1 + 1, d * 2 ^ attempt :: rest.2.2) := rfl

theorem retryGo_allFail {E A : Type} (err : Nat → E) (d : ℚ) :
    ∀ (k attempt : Nat) (last : Option E),
      retryGo (fun i => (Except.error (err i) : Except E A)) d (k + 1) attempt last =
        (Except.error (some (err (attempt + k))), k + 1,
          (List.range' attempt k).map (fun i => d * 2 ^ i)) := by
  intro k
  induction k with
  | zero =>
    intro attempt last
    simp [retryGo, List.range']
  | succ k ih =>
    intro attempt last
    have hidx : attempt + 1 + k = attempt + (k + 1) := by omega
    rw [retryGo_succ]
    dsimp only
    rw [if_neg (by omega : ¬(k + 1 = 0)), ih (attempt + 1) (some (err attempt)),
      hidx, List.range'_succ]
    simp

/-- C5: an operation failing on every attempt is invoked exactly
`maxAttempts` times; the sleep after the `i`-th failed attempt (zero
based) is `baseDelayMs * 2 ^ i` and happens exactly when attempts remain
(`i < maxAttempts - 1`), never after the last attempt; the error finally
raised is exactly the error of the last invocation — earlier errors are
discarded, and no error kind is treated specially (the theorem holds for
every error-valued `err`). -/
theorem c5_retry_exhaustion {E A : Type} (err : Nat → E) (m : Nat) (d : ℚ)
    (hm : 0 < m) :
    retry (fun i => (Except.error (err i) : Except E A)) (m : Int) d =
      (Except.error (some (err (m - 1))), m,
        (List.range (m - 1)).map (fun i => d * 2 ^ i)) := by
  obtain ⟨k, rfl⟩ : ∃ k, m = k + 1 := ⟨m - 1, by omega⟩
  unfold retry
  rw [show ((k + 1 : Nat) : Int).toNat = k + 1 from by simp]
  rw [retryGo_allFail err d k 0 none]
  simp [List.range_eq_range']

/-- C5 witness: with the default `maxAttempts = 3` and
`baseDelayMs = 1000`, an always-failing operation is invoked three times,
sleeps `1000` and `2000` in between, and raises the error of the third
invocation (`2`). -/
theorem c5_retry_exhaustion_witness :
    retry (fun i => (Except.error i : Except Nat Nat)) ((3 : Nat) : Int) 1000 =
      (Except.error (some 2), 3, [1000, 2000]) := by
  rw [c5_retry_exhaustion (fun i => i) 3 1000 (by decide)]
  norm_num [List.range_succ]

/-- C9: when `retry` is called with `maxAttempts ≤ 0` the loop body never
runs, the operation is never invoked (invocation count `0`), no sleep
happens, and the raised value is the uninitialized `lastError`
(`throw lastError!` throws `undefined`, modelled as `Except.error none`
rather than an error value `some e`). -/
theorem c9_retry_no_attempts {E A : Type} (fn : Nat → Except E A) (m : Int)
    (d : ℚ) (hm : m ≤ 0) :
    retry fn m d = (Except.error none, 0, []) := by
  unfold retry
  rw [show m.toNat = 0 from by omega]
  rfl

/-- C9 witness: `retry` with `maxAttempts = 0` never invokes the
operation and throws the undefined `lastError`. -/
theorem c9_retry_no_attempts_witness :
    retry (fun i => (Except.error i : Except Nat Nat)) (0 : Int) 1000 =
      (Except.error none, 0, []) :=
  c9_retry_no_attempts (fun i => Except.error i) 0 1000 (by decide)

/-- C6: `scrapeBatch` returns exactly one outcome per input target, in
input order: the result has the length of the input, and the `i`-th
outcome is `Success` with the scraped data when target `i` succeeds and
`Failure` with the error message when it fails — independently of the
other targets, so a failure neither stops the batch nor shifts the
remaining outcomes.  On the concrete targets
`[A(fails), B(succeeds), C(fails)]` the outcomes are
`[Failure(A), Success(B), Failure(C)]`. -/
theorem c6_batch_one_outcome_per_target :
    (∀ (runTarget : BatchRequest → Except Str ScrapedData)
        (ts : List BatchRequest),
      (scrapeBatch runTarget ts).length = ts.length ∧
      ∀ i : Nat, (scrapeBatch runTarget ts)[i]? =
        (ts[i]?).map (runOutcome runTarget)) ∧
    scrapeBatch exRunTarget [targetA, targetB, targetC] =
      [BatchOutcome.failure ['a'] ['a'],
       BatchOutcome.success exScrapedData ['b'],
       BatchOutcome.failure ['c'] ['c']] := by
  refine ⟨?_, by decide⟩
  intro runTarget ts
  constructor
  · induction ts with
    | nil => rfl
    | cons r rs ih => simp [scrapeBatch, ih]
  · intro i
    induction ts generalizing i with
    | nil => simp [scrapeBatch]
    | cons r rs ih =>
      cases i with
      | zero => simp [scrapeBatch]
      | succ n => simp [scrapeBatch, ih n]

/-- C7 counterexample: in a state whose page close throws (`"x"`) while
context and browser would close fine, `close` propagates the exception at
once: the context and browser are *not* closed, and none of the three
references is cleared — contradicting "a failure at one level does not
prevent closing the next level" and "all three references are set to
empty afterward". -/
theorem c7_counterexample :
    close stPageCloseFails = (stPageCloseFails, some ['x'], []) ∧
      ¬stPageCloseFails.context = none ∧
      ¬stPageCloseFails.browser = none := by decide

/-- C7 amended: `close` tears down page, then context, then browser, each
level guarded against *absence* (a `null` level is skipped and the next
level is still closed), and when no invoked `close()` throws, all three
references are cleared; but the levels are not guarded against *failure*:
a throwing `close()` aborts the sequence, leaving the later levels
unclosed and all remaining references set (concrete conjunct: a context
close failure after a successful page close leaves the browser open). -/
theorem c7_guarded_teardown :
    (∀ (bi ci pi : Option Nat),
      close { browser := bi.map okHandle, context := ci.map okHandle,
              page := pi.map okHandle } =
        (emptyScraperState, none,
          (if pi.isSome then [CloseLevel.page] else []) ++
          (if ci.isSome then [CloseLevel.context] else []) ++
          (if bi.isSome then [CloseLevel.browser] else []))) ∧
    close stContextCloseFails =
      ({ browser := some (okHandle 2), context := some (badHandle 1),
         page := none }, some ['x'], [CloseLevel.page]) := by
  refine ⟨?_, by decide⟩
  intro bi ci pi
  cases bi <;> cases ci <;> cases pi <;> rfl

/-- C7 witness: the amended theorem applied to a state with no page but a
live context and browser: the missing page does not prevent closing the
context and then the browser, and all references end empty. -/
theorem c7_guarded_teardown_witness :
    close { browser := (some 2 : Option Nat).map okHandle,
            context := (some 1 : Option Nat).map okHandle,
            page := (none : Option Nat).map okHandle } =
      (emptyScraperState, none,
        [CloseLevel.context, CloseLevel.browser]) := by
  have h := c7_guarded_teardown.1 (some 2) (some 1) none
  simpa using h

/-- C8: `ensureReady` (the source's `Scraper.initialize`) is idempotent:
a first call on a fresh scraper creates and stores the supplied engine,
context and page handles and reports the work done; a second call without
an intervening teardown returns the state unchanged and reports no work
(`none`), so the handles created by the first call are still the live
ones. -/
theorem c8_ensure_ready_idempotent :
    ∀ (f₁ f₂ : Handle × Handle × Handle) (o₁ o₂ : ScraperOptions),
      ensureReady f₂ o₂ (ensureReady f₁ o₁ emptyScraperState).1 =
        ((ensureReady f₁ o₁ emptyScraperState).1, none) ∧
      (ensureReady f₁ o₁ emptyScraperState).1 =
        { browser := some f₁.1, context := some f₁.2.1, page := some f₁.2.2 } ∧
      (ensureReady f₁ o₁ emptyScraperState).2.isSome = true := by
  intro f₁ f₂ o₁ o₂
  refine ⟨?_, ?_, ?_⟩ <;> simp [ensureReady, emptyScraperState]

end PriceTracker
